import Mathlib

/-!
# Verification of the rs-solar anomaly engine and date composer

Shallow embedding of `src/anomaly.rs` and `src/kepler.rs` from the
`rs-solar` repository.  The `f64` arithmetic of the source is modelled by
real arithmetic (`ℝ`); the unbounded `while` loops of the source are
modelled by fuel-indexed recursion returning `Option ℝ`, where `none`
stands for fuel exhaustion (the source looping past the given bound).

Components that live in `orbit.rs` (which is not part of the sources under
verification: `Type`, `SemiAxis`, `MeanMotion`, `SolarLongitude`,
`Perihelion`, `Season`) are either modelled from the specification where
the spec pins them down, or abstracted as parameters where it does not;
each such definition says so in its doc comment.
-/

namespace RsSolar

/-- Modelled from the spec: `orbit::Type` lives in `orbit.rs`, which is not
among the sources; spec §3 lists exactly the four conic variants
\{Circular, Elliptical, Parabolic, Hyperbolic\}. -/
inductive OrbitType where
  | Circular
  | Elliptical
  | Parabolic
  | Hyperbolic
deriving DecidableEq

/-- Modelled from the spec: `SemiAxis` lives in `orbit.rs`, which is not
among the sources; spec §4.1: `major()` returns the semi-major axis
unchanged (identity). -/
def SemiAxis.major (a : ℝ) : ℝ := a

namespace Anomaly

/-- `Anomaly::mean` (anomaly.rs lines 16-22): returns the absolute value of
its argument (`mean_motion.abs()`); the `println!` is ignored. -/
noncomputable def mean (mean_motion : ℝ) : ℝ := |mean_motion|

/-- The convergence threshold `1.0e-7` used by all three Newton loops in
`Anomaly::eccentric`. -/
noncomputable def tol : ℝ := 1e-7

/-- One Newton-loop body iteration, generic in the loop body `step`:
given the current iterate `x`, `step x = (dx, x')` returns the updated
increment and iterate.  `nrLoop step fuel dx x` runs
`while dx > 1e-7 { (dx, x) := step x }` with the given fuel; `none` means
the fuel was exhausted with the loop still running. -/
noncomputable def nrLoop (step : ℝ → ℝ × ℝ) : ℕ → ℝ → ℝ → Option ℝ
  | 0, dx, x => if dx > tol then none else some x
  | n + 1, dx, x =>
      if dx > tol then nrLoop step n (step x).1 (step x).2 else some x

/-- Loop body of the Elliptical branch (anomaly.rs lines 137-147):
`x0 = -(zx0 - e) * zx0.sin() - xref`, `x1 = 1 - e * zx0.cos()`,
`zdx = x0 / x1`, `zx0 = zx0 + zdx`.  Note the source's `x0` multiplies
`(zx0 - e)` by `sin zx0`; it is not `-(zx0 - e·sin zx0 - xref)`. -/
noncomputable def ellipStep (e xref : ℝ) (zx0 : ℝ) : ℝ × ℝ :=
  let x0 := -(zx0 - e) * Real.sin zx0 - xref
  let x1 := 1 - e * Real.cos zx0
  let zdx := x0 / x1
  (zdx, zx0 + zdx)

/-- Loop body of the Hyperbolic branch (anomaly.rs lines 100-112):
`x0 = (xref - e) * hx0.sinh() + hx0`, `x1 = e * hx0.cosh() - 1`,
`hdx = x0 / x1`, `hx0 = hx0 + hdx`.  Note the source's `x0` multiplies
`(xref - e)` by `sinh hx0`; it is not `xref - e·sinh hx0 + hx0`. -/
noncomputable def hypStep (e xref : ℝ) (hx0 : ℝ) : ℝ × ℝ :=
  let x0 := (xref - e) * Real.sinh hx0 + hx0
  let x1 := e * Real.cosh hx0 - 1
  let hdx := x0 / x1
  (hdx, hx0 + hdx)

/-- Loop body of the Parabolic branch (anomaly.rs lines 66-80):
`pdx = px0^3 / 6`, `p = SemiAxis(a).major() * (1 - e^2)`, `q = p / 2`,
`px0 = q * px0 + pdx`. -/
noncomputable def paraStep (e a : ℝ) (px0 : ℝ) : ℝ × ℝ :=
  let pdx := px0 ^ 3 / 6
  let p := SemiAxis.major a * (1 - e ^ 2)
  let q := p / 2
  (pdx, q * px0 + pdx)

/-- Final sign correction shared by the three iterative branches
(anomaly.rs lines 83-85, 115-117, 150-152): if the seed `mean_motion` is
negative, negate the result. -/
noncomputable def signAdjust (mean_motion x : ℝ) : ℝ :=
  if mean_motion < 0 then -x else x

/-- `Anomaly::eccentric` (anomaly.rs lines 40-160).  All three iterative
branches start from `dx = 10.0`; Elliptical starts the iterate at
`xref + e * sin xref`, the other two at `xref`, where `xref = mean M`. -/
noncomputable def eccentric (fuel : ℕ) (shape : OrbitType)
    (mean_motion orbital_eccentricity major_axis : ℝ) : Option ℝ :=
  match shape with
  | OrbitType.Circular => some (mean mean_motion)
  | OrbitType.Parabolic =>
      (nrLoop (paraStep orbital_eccentricity major_axis) fuel 10
        (mean mean_motion)).map (signAdjust mean_motion)
  | OrbitType.Hyperbolic =>
      (nrLoop (hypStep orbital_eccentricity (mean mean_motion)) fuel 10
        (mean mean_motion)).map (signAdjust mean_motion)
  | OrbitType.Elliptical =>
      (nrLoop (ellipStep orbital_eccentricity (mean mean_motion)) fuel 10
        (mean mean_motion +
          orbital_eccentricity * Real.sin (mean mean_motion))).map
        (signAdjust mean_motion)

/-- IEEE-style division used to model the Parabolic branch of
`Anomaly::truly`: a finite `f64` divided by zero is non-finite
(`±∞` or NaN), modelled as `none`; division by a nonzero denominator is
finite real division. -/
noncomputable def fdiv (x y : ℝ) : Option ℝ :=
  if y = 0 then none else some (x / y)

/-- `Anomaly::truly` (anomaly.rs lines 177-216).  Each branch consumes the
corresponding eccentric anomaly.  The Parabolic branch recomputes the
perifocal distance from the hard-coded `p = 0.0` (lines 195-196) and
divides by `(2*q).sqrt()`; that division is modelled with `fdiv` so that a
zero divisor yields the non-finite marker `none`. -/
noncomputable def truly (fuel : ℕ) (mean_motion : ℝ) (shape : OrbitType)
    (orbital_eccentricity major_axis : ℝ) : Option ℝ :=
  match shape with
  | OrbitType.Circular =>
      (eccentric fuel OrbitType.Circular mean_motion orbital_eccentricity
        major_axis).map (fun theta => theta + mean_motion)
  | OrbitType.Parabolic =>
      (eccentric fuel OrbitType.Parabolic mean_motion orbital_eccentricity
        major_axis).bind (fun theta =>
          let p : ℝ := 0
          let q := p / 2
          fdiv theta (Real.sqrt (2 * q)))
  | OrbitType.Hyperbolic =>
      (eccentric fuel OrbitType.Hyperbolic mean_motion orbital_eccentricity
        major_axis).map (fun theta =>
          ((orbital_eccentricity + 1) / (orbital_eccentricity - 1)) ^
              ((1 : ℝ) / 2) *
            Real.tanh (theta / 2))
  | OrbitType.Elliptical =>
      (eccentric fuel OrbitType.Elliptical mean_motion orbital_eccentricity
        major_axis).map (fun theta =>
          2 * Real.arctan
            (Real.sqrt ((1 + orbital_eccentricity) /
                (1 - orbital_eccentricity)) *
              Real.tan (theta / 2)))

end Anomaly

/-- Modelled from the spec: `EARTH_ROTATIONAL_PERIOD` lives in
`planets/mod.rs`, which is not among the sources; spec §4.5 step 1 calls it
the reference body's rotational period.  Mars's rotational period is given
in seconds (88775.245), so Earth's is one day of seconds.  No claim
depends on its value. -/
noncomputable def EARTH_ROTATIONAL_PERIOD : ℝ := 86400

/-- `Eras` (kepler.rs lines 56-68): the era of a date. -/
inductive Eras where
  | AD
  | BD
  | Unknown
deriving DecidableEq

/-- The Rust `as i32` cast on an `f64`, for finite values within `i32`
range: truncation toward zero (kepler.rs line 132 `year as i32`).
Saturation at the `i32` bounds is not modelled. -/
noncomputable def toI32 (y : ℝ) : ℤ :=
  if 0 ≤ y then ⌊y⌋ else -⌊-y⌋

/-- `Date` (kepler.rs lines 70-85): era, year, month, day, solar longitude
and season of a body. -/
structure Date where
  era : Eras
  year : ℝ
  month : ℝ
  day : ℝ
  ls : ℝ
  season : String

/-- First normalization loop of `Date::compute` (kepler.rs lines 110-113):
`while tmp_day >= orbital_period { tmp_day -= orbital_period; tmp_year += 1.0 }`,
on the state `(tmp_day, tmp_year)`, with fuel; `none` means the fuel was
exhausted with the loop still running.

The f64 subtraction is modelled as exact real subtraction.  That is an
idealization which always makes progress, whereas IEEE binary64
subtraction is a no-op once `orbital_period` is below half an ulp of
`tmp_day` (e.g. `tmp_day = 1e19`, `orbital_period = 668.6`, ulp `2048`),
in which case the source loop runs forever.  This model therefore
supports claims about the values the loop produces when it exits (the
date-record fields and the era, which are insensitive to the gap), not
claims about whether the source loop terminates. -/
noncomputable def normSub (orbital_period : ℝ) : ℕ → ℝ × ℝ → Option (ℝ × ℝ)
  | 0, s => if s.1 ≥ orbital_period then none else some s
  | n + 1, s =>
      if s.1 ≥ orbital_period then
        normSub orbital_period n (s.1 - orbital_period, s.2 + 1)
      else some s

/-- Second normalization loop of `Date::compute` (kepler.rs lines 115-118):
`while tmp_day < 0.0 { tmp_day += orbital_period; tmp_year -= 1.0 }`.
The same real-arithmetic idealization as in `normSub` applies to the f64
addition: progress is guaranteed in the model but not in binary64 for
very large negative day values. -/
noncomputable def normAdd (orbital_period : ℝ) : ℕ → ℝ × ℝ → Option (ℝ × ℝ)
  | 0, s => if s.1 < 0 then none else some s
  | n + 1, s =>
      if s.1 < 0 then
        normAdd orbital_period n (s.1 + orbital_period, s.2 - 1)
      else some s

/-- Both day-normalization loops of `Date::compute`, in source order. -/
noncomputable def normalize (orbital_period : ℝ) (fuel : ℕ) (s : ℝ × ℝ) :
    Option (ℝ × ℝ) :=
  (normSub orbital_period fuel s).bind (normAdd orbital_period fuel)

/-- `Date::compute` (kepler.rs lines 95-145).

`SolarLongitude::compute` and `Perihelion::avg_ls` live in `orbit.rs`,
which is not among the sources, so they are abstracted: `sl` maps the
normalized day to the solar longitude `ls` (absorbing the shape and
orbital-element arguments the source passes), and `avgLs` is the value of
`peri.avg_ls()`; likewise `seasonF` abstracts `Season::default().from`.
Every property proved below about `compute` holds for all instantiations
of these parameters.  The fuel bounds the two normalization loops. -/
noncomputable def Date.compute (sl : ℝ → ℝ) (avgLs : ℝ)
    (seasonF : ℝ → String) (fuel : ℕ)
    (julian_date epoch rotational_period orbital_period : ℝ) : Option Date :=
  match normalize orbital_period fuel
      ((julian_date - epoch) * EARTH_ROTATIONAL_PERIOD / rotational_period,
        12) with
  | none => none
  | some s =>
      let ls := sl s.1
      let year := s.2
      let month := 1 + (⌊ls / avgLs⌋ : ℝ)
      let day := 1 + (⌊s.1⌋ : ℝ)
      let season := seasonF ls
      let era := if toI32 year > 0 then Eras.AD else Eras.BD
      some ⟨era, year, month, day, ls, season⟩

/-- Which eccentricities are valid for which orbit shape (spec §3):
`e = 0` Circular, `0 < e < 1` Elliptical, `e = 1` Parabolic, `e > 1`
Hyperbolic. -/
def validEcc : OrbitType → ℝ → Prop
  | OrbitType.Circular, e => e = 0
  | OrbitType.Elliptical, e => 0 < e ∧ e < 1
  | OrbitType.Parabolic, e => e = 1
  | OrbitType.Hyperbolic, e => 1 < e

/-! ## Basic evaluation lemmas -/

theorem tol_pos : 0 < Anomaly.tol := by
  unfold Anomaly.tol
  norm_num

theorem nrLoop_exit (step : ℝ → ℝ × ℝ) (n : ℕ) (dx x : ℝ)
    (h : ¬ dx > Anomaly.tol) : Anomaly.nrLoop step n dx x = some x := by
  cases n with
  | zero => simp only [Anomaly.nrLoop, if_neg h]
  | succ m => simp only [Anomaly.nrLoop, if_neg h]

theorem nrLoop_go (step : ℝ → ℝ × ℝ) (n : ℕ) (dx x : ℝ)
    (h : dx > Anomaly.tol) :
    Anomaly.nrLoop step (n + 1) dx x =
      Anomaly.nrLoop step n (step x).1 (step x).2 := by
  simp only [Anomaly.nrLoop, if_pos h]

/-! ## C2: the Circular branch -/

/-- C2: counterexample.  The claim says `eccentric(Circular, M, e, a)`
returns `M` unchanged for every finite `M` including negative `M`; but the
Circular branch returns `self.mean(M) = M.abs()`, so at `M = -1` it
returns `1`, not `-1`. -/
theorem eccentric_circular_neg_counterexample :
    Anomaly.eccentric 0 OrbitType.Circular (-1) 0 1 = some 1 ∧
      (1 : ℝ) ≠ -1 := by
  constructor
  · simp [Anomaly.eccentric, Anomaly.mean]
  · norm_num

/-- C2 (amended): the Circular branch returns the absolute value `|M|` of
the mean-anomaly seed (so it returns `M` unchanged only for `M ≥ 0`),
independently of the eccentricity and the semi-major axis. -/
theorem eccentric_circular_returns_abs (fuel : ℕ) (M e a : ℝ) :
    Anomaly.eccentric fuel OrbitType.Circular M e a = some |M| := rfl

/-! ## C9: elliptical true anomaly at the periapsis seed -/

/-- C9: for every eccentricity `0 < e < 1` and every semi-major axis `a`,
the elliptical true anomaly at mean-anomaly seed `M = 0` is `0` (with any
positive loop fuel): the eccentric-anomaly loop starts at `0`, its first
increment is `0`, so it exits with `E = 0`, and
`2·arctan(√((1+e)/(1-e))·tan 0) = 0`. -/
theorem truly_elliptical_at_zero (e a : ℝ) (fuel : ℕ)
    (h0 : 0 < e) (h1 : e < 1) :
    Anomaly.truly (fuel + 1) 0 OrbitType.Elliptical e a = some 0 := by
  have hmean : Anomaly.mean 0 = 0 := by simp [Anomaly.mean]
  have hstep : Anomaly.ellipStep e (Anomaly.mean 0) 0 = (0, 0) := by
    simp [Anomaly.ellipStep, hmean]
  have hloop :
      Anomaly.nrLoop (Anomaly.ellipStep e (Anomaly.mean 0)) (fuel + 1) 10
        (Anomaly.mean 0 + e * Real.sin (Anomaly.mean 0)) = some 0 := by
    rw [hmean]
    have h10 : (10 : ℝ) > Anomaly.tol := by
      unfold Anomaly.tol; norm_num
    rw [show (0 : ℝ) + e * Real.sin 0 = 0 by simp]
    rw [nrLoop_go _ _ _ _ h10, hmean] at *
    rw [hstep]
    exact nrLoop_exit _ _ _ _ (by simpa using tol_pos.le)
  simp only [Anomaly.truly, Anomaly.eccentric, hloop, Option.map_some']
  have hsig : Anomaly.signAdjust 0 0 = 0 := by
    simp [Anomaly.signAdjust]
  rw [hsig]
  simp

/-- C9 witness: the theorem applied at `e = 1/2`, `a = 1`, fuel `0 + 1`. -/
theorem truly_elliptical_at_zero_witness :
    (0 : ℝ) < 1 / 2 ∧ (1 : ℝ) / 2 < 1 ∧
      Anomaly.truly 1 0 OrbitType.Elliptical (1 / 2) 1 = some 0 :=
  ⟨by norm_num, by norm_num,
    truly_elliptical_at_zero (1 / 2) 1 0 (by norm_num) (by norm_num)⟩

/-! ## One-iteration evaluations of the iterative branches -/

theorem signAdjust_of_nonneg (M x : ℝ) (hM : 0 ≤ M) :
    Anomaly.signAdjust M x = x := by
  simp [Anomaly.signAdjust, not_lt.mpr hM]

theorem ten_gt_tol : (10 : ℝ) > Anomaly.tol := by
  unfold Anomaly.tol
  norm_num

theorem eccentric_elliptical_one_iter (fuel : ℕ) (M e a dx x' : ℝ)
    (hM : 0 ≤ M)
    (hstep : Anomaly.ellipStep e M (M + e * Real.sin M) = (dx, x'))
    (hdx : ¬ dx > Anomaly.tol) :
    Anomaly.eccentric (fuel + 1) OrbitType.Elliptical M e a = some x' := by
  have hmean : Anomaly.mean M = M := abs_of_nonneg hM
  have hred : Anomaly.eccentric (fuel + 1) OrbitType.Elliptical M e a =
      (Anomaly.nrLoop (Anomaly.ellipStep e (Anomaly.mean M)) (fuel + 1) 10
        (Anomaly.mean M + e * Real.sin (Anomaly.mean M))).map
        (Anomaly.signAdjust M) := rfl
  rw [hred, hmean, nrLoop_go _ _ _ _ ten_gt_tol, hstep]
  rw [nrLoop_exit _ _ _ _ hdx, Option.map_some', signAdjust_of_nonneg _ _ hM]

theorem eccentric_hyperbolic_one_iter (fuel : ℕ) (M e a dx x' : ℝ)
    (hM : 0 ≤ M)
    (hstep : Anomaly.hypStep e M M = (dx, x'))
    (hdx : ¬ dx > Anomaly.tol) :
    Anomaly.eccentric (fuel + 1) OrbitType.Hyperbolic M e a = some x' := by
  have hmean : Anomaly.mean M = M := abs_of_nonneg hM
  have hred : Anomaly.eccentric (fuel + 1) OrbitType.Hyperbolic M e a =
      (Anomaly.nrLoop (Anomaly.hypStep e (Anomaly.mean M)) (fuel + 1) 10
        (Anomaly.mean M)).map (Anomaly.signAdjust M) := rfl
  rw [hred, hmean, nrLoop_go _ _ _ _ ten_gt_tol, hstep]
  rw [nrLoop_exit _ _ _ _ hdx, Option.map_some', signAdjust_of_nonneg _ _ hM]

/-! ## C1: the Elliptical branch does not solve Kepler's equation -/

/-- C1: the claim asserts `|E − e·sin E − M| < 1e-6` for the value `E`
returned by the elliptical branch, for all `0 < e < 1`.  The code instead
computes `x0 = -(zx0 - e)·sin zx0 - xref` (not `-(zx0 - e·sin zx0 - xref)`,
contradicting the doc comment `f(E)=E-e\sin(E)-M(t)` right above it) and
exits the loop on the first negative step because it tests `zdx > 1e-7`
instead of `|zdx| > 1e-7`.  At `M = π`, `e = 1/2`, `a = 1` it returns
`E = π/3` after one iteration, and the Kepler residual of `π/3` is
`2π/3 + √3/4 ≈ 2.53`, far above `1e-6`. -/
theorem elliptical_solver_violates_kepler_residual :
    Anomaly.eccentric 2 OrbitType.Elliptical Real.pi (1 / 2) 1 =
        some (Real.pi / 3) ∧
      1e-6 ≤ |Real.pi / 3 - 1 / 2 * Real.sin (Real.pi / 3) - Real.pi| := by
  constructor
  · have hstep :
        Anomaly.ellipStep (1 / 2) Real.pi
          (Real.pi + 1 / 2 * Real.sin Real.pi) =
          (-(2 * Real.pi / 3), Real.pi / 3) := by
      simp only [Anomaly.ellipStep, Real.sin_pi, Real.cos_pi]
      norm_num
      constructor <;> ring
    refine eccentric_elliptical_one_iter 1 _ _ _ _ _ Real.pi_pos.le hstep ?_
    have := Real.pi_pos
    have := tol_pos
    push_neg
    nlinarith
  · rw [Real.sin_pi_div_three]
    have h3 : (3 : ℝ) < Real.pi := Real.pi_gt_three
    have hsq : (0 : ℝ) ≤ Real.sqrt 3 := Real.sqrt_nonneg 3
    have habs := neg_le_abs
      (Real.pi / 3 - 1 / 2 * (Real.sqrt 3 / 2) - Real.pi)
    have h2 : (1e-6 : ℝ) ≤ 2 := by norm_num
    linarith

/-! ## C5: `e = 1.0` is not rejected by the Elliptical branch -/

/-- C5: counterexample.  The claim says the Elliptical and Hyperbolic
branches reject `e = 1.0` with a DomainPrecondition error; but `eccentric`
has no error channel at all (it returns a plain `f64`), and at `e = 1`,
`M = π` the Elliptical branch silently computes the numeric value `π/2`. -/
theorem eccentric_elliptical_e_one_computes :
    Anomaly.eccentric 2 OrbitType.Elliptical Real.pi 1 1 =
      some (Real.pi / 2) := by
  have hstep :
      Anomaly.ellipStep 1 Real.pi (Real.pi + 1 * Real.sin Real.pi) =
        (-(Real.pi / 2), Real.pi / 2) := by
    simp only [Anomaly.ellipStep, Real.sin_pi, Real.cos_pi]
    norm_num
    constructor <;> ring
  refine eccentric_elliptical_one_iter 1 _ _ _ _ _ Real.pi_pos.le hstep ?_
  have := Real.pi_pos
  have := tol_pos
  push_neg
  nlinarith

/-- C5 (amended): at `e = 1.0` the Elliptical branch (and likewise the
Hyperbolic one) performs no rejection: the solver's return type is a plain
number with no failure condition, and the branch silently computes a
numeric result — e.g. for every semi-major axis `a` and any positive fuel,
the Elliptical branch at `M = π`, `e = 1` returns `E = π/2`. -/
theorem eccentric_elliptical_e_one_no_rejection (fuel : ℕ) (a : ℝ) :
    Anomaly.eccentric (fuel + 1) OrbitType.Elliptical Real.pi 1 a =
      some (Real.pi / 2) := by
  have hstep :
      Anomaly.ellipStep 1 Real.pi (Real.pi + 1 * Real.sin Real.pi) =
        (-(Real.pi / 2), Real.pi / 2) := by
    simp only [Anomaly.ellipStep, Real.sin_pi, Real.cos_pi]
    norm_num
    constructor <;> ring
  refine eccentric_elliptical_one_iter fuel _ _ _ _ _ Real.pi_pos.le hstep ?_
  have := Real.pi_pos
  have := tol_pos
  push_neg
  nlinarith

/-! ## C3: the Hyperbolic branch does not solve the hyperbolic Kepler
equation -/

/-- C3: the claim asserts `|e·sinh H − H − M| < 1e-6` for the value `H`
returned by the hyperbolic branch, for all `e > 1`.  The code instead
computes `x0 = (xref - e)·sinh hx0 + hx0` (not `xref - e·sinh hx0 + hx0`,
contradicting the doc comment `H_(k+1) = H_k + (M-e sinh(H_k)+H_k)/(e cosh(H_k)-1)`
right above it) and exits the loop on the first negative step because it
tests `hdx > 1e-7` instead of `|hdx| > 1e-7`.  At `M = 1`, `e = 3`,
`a = 1` it returns `H = 1 + (1 − 2·sinh 1)/(3·cosh 1 − 1) ≈ 0.628` after
one iteration, whose hyperbolic Kepler residual is ≈ 0.38, far above
`1e-6`. -/
theorem hyperbolic_solver_violates_kepler_residual :
    Anomaly.eccentric 2 OrbitType.Hyperbolic 1 3 1 =
        some (1 + (1 - 2 * Real.sinh 1) / (3 * Real.cosh 1 - 1)) ∧
      1e-6 ≤
        |3 * Real.sinh (1 + (1 - 2 * Real.sinh 1) / (3 * Real.cosh 1 - 1)) -
            (1 + (1 - 2 * Real.sinh 1) / (3 * Real.cosh 1 - 1)) - 1| := by
  have s1 : (1 : ℝ) < Real.sinh 1 := Real.self_lt_sinh_iff.mpr one_pos
  have c1 : (1 : ℝ) ≤ Real.cosh 1 := Real.one_le_cosh 1
  have hden : (0 : ℝ) < 3 * Real.cosh 1 - 1 := by linarith
  have hnum : 1 - 2 * Real.sinh 1 < 0 := by linarith
  have hdxneg : (1 - 2 * Real.sinh 1) / (3 * Real.cosh 1 - 1) < 0 :=
    div_neg_of_neg_of_pos hnum hden
  constructor
  · have hstep : Anomaly.hypStep 3 1 1 =
        ((1 - 2 * Real.sinh 1) / (3 * Real.cosh 1 - 1),
          1 + (1 - 2 * Real.sinh 1) / (3 * Real.cosh 1 - 1)) := by
      simp only [Anomaly.hypStep, Prod.mk.injEq]
      constructor <;> ring_nf
    refine eccentric_hyperbolic_one_iter 1 _ _ _ _ _ (by norm_num) hstep ?_
    have := tol_pos
    push_neg
    linarith
  · have hsinh_ub : Real.sinh 1 < 1.18 := by
      rw [Real.sinh_eq]
      have h1 := Real.exp_one_lt_d9
      have h2 := Real.exp_neg_one_gt_d9
      linarith
    have hcosh_lb : (1.54 : ℝ) < Real.cosh 1 := by
      rw [Real.cosh_eq]
      have h1 := Real.exp_one_gt_d9
      have h2 := Real.exp_neg_one_gt_d9
      linarith
    set dx := (1 - 2 * Real.sinh 1) / (3 * Real.cosh 1 - 1) with hdxdef
    have hdx_lb : (-0.4 : ℝ) ≤ dx := by
      rw [hdxdef, le_div_iff₀ hden]
      linarith
    have hHpos : (0 : ℝ) < 1 + dx := by linarith
    have hsinhH : 1 + dx < Real.sinh (1 + dx) :=
      Real.self_lt_sinh_iff.mpr hHpos
    have habs := le_abs_self
      (3 * Real.sinh (1 + dx) - (1 + dx) - 1)
    have hsmall : (1e-6 : ℝ) ≤ 0.2 := by norm_num
    linarith

/-! ## C4: sign symmetry of the eccentric-anomaly solver -/

theorem mean_neg (M : ℝ) : Anomaly.mean (-M) = Anomaly.mean M := by
  simp [Anomaly.mean]

theorem signAdjust_neg_seed (M x : ℝ) (hM : M ≠ 0) :
    Anomaly.signAdjust (-M) x = -Anomaly.signAdjust M x := by
  rcases lt_or_gt_of_ne hM with h | h
  · rw [Anomaly.signAdjust, Anomaly.signAdjust, if_pos h,
      if_neg (by linarith : ¬ -M < 0), neg_neg]
  · rw [Anomaly.signAdjust, Anomaly.signAdjust, if_neg (by linarith : ¬ M < 0),
      if_pos (by linarith : -M < 0)]

theorem ellipStep_zero (e xref : ℝ) (h : xref = 0) :
    Anomaly.ellipStep e xref 0 = (0, 0) := by
  simp [Anomaly.ellipStep, h]

theorem hypStep_zero (e xref : ℝ) (h : xref = 0) :
    Anomaly.hypStep e xref 0 = (0, 0) := by
  simp [Anomaly.hypStep, h]

theorem paraStep_zero (e a : ℝ) : Anomaly.paraStep e a 0 = (0, 0) := by
  simp [Anomaly.paraStep]

/-- With seed `0` the three iterative branches exit at the first re-check
with iterate `0` (or exhaust a zero fuel budget). -/
theorem eccentric_at_zero (fuel : ℕ) (shape : OrbitType) (e a : ℝ)
    (hshape : shape ≠ OrbitType.Circular) :
    Anomaly.eccentric fuel shape 0 e a =
      if fuel = 0 then none else some 0 := by
  have hmean : Anomaly.mean 0 = 0 := by simp [Anomaly.mean]
  have hsig : Anomaly.signAdjust 0 0 = 0 := by simp [Anomaly.signAdjust]
  have hnot : ¬ (0 : ℝ) > Anomaly.tol := by
    have := tol_pos; linarith
  cases shape with
  | Circular => exact absurd rfl hshape
  | Elliptical =>
    have hred : Anomaly.eccentric fuel OrbitType.Elliptical 0 e a =
        (Anomaly.nrLoop (Anomaly.ellipStep e (Anomaly.mean 0)) fuel 10
          (Anomaly.mean 0 + e * Real.sin (Anomaly.mean 0))).map
          (Anomaly.signAdjust 0) := rfl
    rw [hred, hmean]
    cases fuel with
    | zero =>
      simp [Anomaly.nrLoop, if_pos ten_gt_tol]
    | succ n =>
      rw [show (0 : ℝ) + e * Real.sin 0 = 0 by simp,
        nrLoop_go _ _ _ _ ten_gt_tol, ellipStep_zero e 0 rfl]
      rw [nrLoop_exit _ _ _ _ hnot]
      simp [hsig]
  | Hyperbolic =>
    have hred : Anomaly.eccentric fuel OrbitType.Hyperbolic 0 e a =
        (Anomaly.nrLoop (Anomaly.hypStep e (Anomaly.mean 0)) fuel 10
          (Anomaly.mean 0)).map (Anomaly.signAdjust 0) := rfl
    rw [hred, hmean]
    cases fuel with
    | zero =>
      simp [Anomaly.nrLoop, if_pos ten_gt_tol]
    | succ n =>
      rw [nrLoop_go _ _ _ _ ten_gt_tol, hypStep_zero e 0 rfl]
      rw [nrLoop_exit _ _ _ _ hnot]
      simp [hsig]
  | Parabolic =>
    have hred : Anomaly.eccentric fuel OrbitType.Parabolic 0 e a =
        (Anomaly.nrLoop (Anomaly.paraStep e a) fuel 10
          (Anomaly.mean 0)).map (Anomaly.signAdjust 0) := rfl
    rw [hred, hmean]
    cases fuel with
    | zero =>
      simp [Anomaly.nrLoop, if_pos ten_gt_tol]
    | succ n =>
      rw [nrLoop_go _ _ _ _ ten_gt_tol, paraStep_zero e a]
      rw [nrLoop_exit _ _ _ _ hnot]
      simp [hsig]

/-- C4: counterexample.  The claim asserts
`eccentric(shape, −M, e, a) = −eccentric(shape, M, e, a)` for every shape;
but the Circular branch (valid eccentricity `e = 0`) has no sign
correction: it returns `|M|`, so at `M = 2` both signs of the seed give
`2`, and `2 ≠ -2`. -/
theorem eccentric_sign_symmetry_fails_circular :
    Anomaly.eccentric 0 OrbitType.Circular (-2) 0 1 = some 2 ∧
      Anomaly.eccentric 0 OrbitType.Circular 2 0 1 = some 2 ∧
      (2 : ℝ) ≠ -2 := by
  refine ⟨?_, ?_, by norm_num⟩ <;> simp [Anomaly.eccentric, Anomaly.mean]

/-- C4 (amended): sign symmetry holds for the three iterative branches but
not for Circular: for every shape other than Circular, every eccentricity
valid for that shape, every semi-major axis and fuel,
`eccentric(shape, −M, e, a)` equals `−eccentric(shape, M, e, a)` (as
`Option.map` of negation); the Circular branch instead satisfies
`eccentric(Circular, −M, e, a) = eccentric(Circular, M, e, a) = |M|`. -/
theorem eccentric_sign_symmetry_noncircular (fuel : ℕ) (shape : OrbitType)
    (M e a : ℝ) (hshape : shape ≠ OrbitType.Circular)
    (hvalid : validEcc shape e) :
    Anomaly.eccentric fuel shape (-M) e a =
      (Anomaly.eccentric fuel shape M e a).map (fun x => -x) := by
  rcases eq_or_ne M 0 with hM | hM
  · subst hM
    rw [neg_zero, eccentric_at_zero fuel shape e a hshape]
    cases fuel with
    | zero => simp
    | succ n => simp
  · cases shape with
    | Circular => exact absurd rfl hshape
    | Elliptical =>
      have hred1 : Anomaly.eccentric fuel OrbitType.Elliptical (-M) e a =
          (Anomaly.nrLoop (Anomaly.ellipStep e (Anomaly.mean (-M))) fuel 10
            (Anomaly.mean (-M) + e * Real.sin (Anomaly.mean (-M)))).map
            (Anomaly.signAdjust (-M)) := rfl
      have hred2 : Anomaly.eccentric fuel OrbitType.Elliptical M e a =
          (Anomaly.nrLoop (Anomaly.ellipStep e (Anomaly.mean M)) fuel 10
            (Anomaly.mean M + e * Real.sin (Anomaly.mean M))).map
            (Anomaly.signAdjust M) := rfl
      rw [hred1, hred2, mean_neg]
      cases hL : Anomaly.nrLoop (Anomaly.ellipStep e (Anomaly.mean M)) fuel 10
          (Anomaly.mean M + e * Real.sin (Anomaly.mean M)) with
      | none => simp
      | some x => simp [signAdjust_neg_seed M x hM]
    | Hyperbolic =>
      have hred1 : Anomaly.eccentric fuel OrbitType.Hyperbolic (-M) e a =
          (Anomaly.nrLoop (Anomaly.hypStep e (Anomaly.mean (-M))) fuel 10
            (Anomaly.mean (-M))).map (Anomaly.signAdjust (-M)) := rfl
      have hred2 : Anomaly.eccentric fuel OrbitType.Hyperbolic M e a =
          (Anomaly.nrLoop (Anomaly.hypStep e (Anomaly.mean M)) fuel 10
            (Anomaly.mean M)).map (Anomaly.signAdjust M) := rfl
      rw [hred1, hred2, mean_neg]
      cases hL : Anomaly.nrLoop (Anomaly.hypStep e (Anomaly.mean M)) fuel 10
          (Anomaly.mean M) with
      | none => simp
      | some x => simp [signAdjust_neg_seed M x hM]
    | Parabolic =>
      have hred1 : Anomaly.eccentric fuel OrbitType.Parabolic (-M) e a =
          (Anomaly.nrLoop (Anomaly.paraStep e a) fuel 10
            (Anomaly.mean (-M))).map (Anomaly.signAdjust (-M)) := rfl
      have hred2 : Anomaly.eccentric fuel OrbitType.Parabolic M e a =
          (Anomaly.nrLoop (Anomaly.paraStep e a) fuel 10
            (Anomaly.mean M)).map (Anomaly.signAdjust M) := rfl
      rw [hred1, hred2, mean_neg]
      cases hL : Anomaly.nrLoop (Anomaly.paraStep e a) fuel 10
          (Anomaly.mean M) with
      | none => simp
      | some x => simp [signAdjust_neg_seed M x hM]

/-- C4 witness: the amended theorem applied at the Hyperbolic shape,
`M = 1`, `e = 3`, `a = 1`, fuel `2`. -/
theorem eccentric_sign_symmetry_noncircular_witness :
    OrbitType.Hyperbolic ≠ OrbitType.Circular ∧
      validEcc OrbitType.Hyperbolic 3 ∧
      Anomaly.eccentric 2 OrbitType.Hyperbolic (-1) 3 1 =
        (Anomaly.eccentric 2 OrbitType.Hyperbolic 1 3 1).map
          (fun x => -x) :=
  ⟨by decide, by norm_num [validEcc],
    eccentric_sign_symmetry_noncircular 2 OrbitType.Hyperbolic 1 3 1
      (by decide) (by norm_num [validEcc])⟩

/-! ## C10: the parabolic true anomaly is never finite -/

/-- C10: for every fuel, seed, eccentricity and semi-major axis, the
Parabolic branch of `truly` never produces a finite number: it recomputes
the semi-latus rectum as the hard-coded `p = 0`, hence `q = 0`, and
divides the parabolic eccentric anomaly by `√(2·q) = 0`, which is
non-finite in IEEE arithmetic (`none` in this model; `none` also covers
the seeds on which the parabolic Newton loop itself never converges). -/
theorem truly_parabolic_never_finite (fuel : ℕ) (M e a : ℝ) :
    Anomaly.truly fuel M OrbitType.Parabolic e a = none := by
  unfold Anomaly.truly
  cases h : Anomaly.eccentric fuel OrbitType.Parabolic M e a with
  | none => simp
  | some theta => simp [Anomaly.fdiv]

/-! ## Day-normalization loops of `Date::compute` -/

theorem normSub_exit (P : ℝ) (n : ℕ) (s : ℝ × ℝ) (h : ¬ s.1 ≥ P) :
    normSub P n s = some s := by
  cases n <;> simp only [normSub, if_neg h]

theorem normAdd_exit (P : ℝ) (n : ℕ) (s : ℝ × ℝ) (h : ¬ s.1 < 0) :
    normAdd P n s = some s := by
  cases n <;> simp only [normAdd, if_neg h]

theorem normSub_terminates (P : ℝ) (hP : 0 < P) :
    ∀ (n : ℕ) (d y : ℝ), d < P + n * P →
      ∃ r y', normSub P n (d, y) = some (r, y') ∧ r < P := by
  intro n
  induction n with
  | zero =>
    intro d y h
    rw [Nat.cast_zero, zero_mul, add_zero] at h
    exact ⟨d, y, normSub_exit P 0 (d, y) (not_le.mpr h), h⟩
  | succ m ih =>
    intro d y h
    by_cases hd : d ≥ P
    · have h' : d - P < P + m * P := by push_cast at h ⊢; linarith
      obtain ⟨r, y', hr, hrP⟩ := ih (d - P) (y + 1) h'
      refine ⟨r, y', ?_, hrP⟩
      rw [show normSub P (m + 1) (d, y) = normSub P m (d - P, y + 1) from by
        simp only [normSub, if_pos hd]]
      exact hr
    · exact ⟨d, y, normSub_exit P _ _ hd, not_le.mp hd⟩

theorem normSub_lower (P : ℝ) (hP : 0 < P) :
    ∀ (n : ℕ) (d y r y' : ℝ),
      normSub P n (d, y) = some (r, y') → min d 0 ≤ r := by
  intro n
  induction n with
  | zero =>
    intro d y r y' h
    by_cases hd : d ≥ P
    · exact Option.noConfusion (by simpa only [normSub, if_pos hd] using h)
    · simp only [normSub, if_neg hd, Option.some.injEq, Prod.mk.injEq] at h
      obtain ⟨h1, _⟩ := h
      subst h1
      exact min_le_left d 0
  | succ m ih =>
    intro d y r y' h
    by_cases hd : d ≥ P
    · rw [show normSub P (m + 1) (d, y) = normSub P m (d - P, y + 1) from by
        simp only [normSub, if_pos hd]] at h
      have h0 := ih (d - P) (y + 1) r y' h
      have h1 : min (d - P) 0 = 0 := min_eq_right (by linarith)
      have h2 : min d 0 ≤ 0 := min_le_right d 0
      linarith [h1 ▸ h0]
    · simp only [normSub, if_neg hd, Option.some.injEq, Prod.mk.injEq] at h
      obtain ⟨h1, _⟩ := h
      subst h1
      exact min_le_left d 0

theorem normAdd_terminates (P : ℝ) (hP : 0 < P) :
    ∀ (n : ℕ) (w y : ℝ), w < P → -(n * P) ≤ w →
      ∃ r y', normAdd P n (w, y) = some (r, y') ∧ 0 ≤ r ∧ r < P := by
  intro n
  induction n with
  | zero =>
    intro w y hwP hw
    rw [Nat.cast_zero, zero_mul, neg_zero] at hw
    exact ⟨w, y, normAdd_exit P 0 (w, y) (not_lt.mpr hw), hw, hwP⟩
  | succ m ih =>
    intro w y hwP hw
    by_cases hneg : w < 0
    · have h1 : w + P < P := by linarith
      have h2 : -(m * P) ≤ w + P := by push_cast at hw ⊢; linarith
      obtain ⟨r, y', hr, hr0, hrP⟩ := ih (w + P) (y - 1) h1 h2
      refine ⟨r, y', ?_, hr0, hrP⟩
      rw [show normAdd P (m + 1) (w, y) = normAdd P m (w + P, y - 1) from by
        simp only [normAdd, if_pos hneg]]
      exact hr
    · exact ⟨w, y, normAdd_exit P _ _ hneg, not_lt.mp hneg, hwP⟩

theorem normSub_year (P : ℝ) :
    ∀ (n : ℕ) (d y r y' : ℝ),
      normSub P n (d, y) = some (r, y') → ∃ k : ℤ, y' = y + k := by
  intro n
  induction n with
  | zero =>
    intro d y r y' h
    by_cases hd : d ≥ P
    · exact Option.noConfusion (by simpa only [normSub, if_pos hd] using h)
    · simp only [normSub, if_neg hd, Option.some.injEq, Prod.mk.injEq] at h
      exact ⟨0, by rw [← h.2]; simp⟩
  | succ m ih =>
    intro d y r y' h
    by_cases hd : d ≥ P
    · rw [show normSub P (m + 1) (d, y) = normSub P m (d - P, y + 1) from by
        simp only [normSub, if_pos hd]] at h
      obtain ⟨k, hk⟩ := ih (d - P) (y + 1) r y' h
      exact ⟨k + 1, by rw [hk]; push_cast; ring⟩
    · simp only [normSub, if_neg hd, Option.some.injEq, Prod.mk.injEq] at h
      exact ⟨0, by rw [← h.2]; simp⟩

theorem normAdd_year (P : ℝ) :
    ∀ (n : ℕ) (d y r y' : ℝ),
      normAdd P n (d, y) = some (r, y') → ∃ k : ℤ, y' = y + k := by
  intro n
  induction n with
  | zero =>
    intro d y r y' h
    by_cases hd : d < 0
    · exact Option.noConfusion (by simpa only [normAdd, if_pos hd] using h)
    · simp only [normAdd, if_neg hd, Option.some.injEq, Prod.mk.injEq] at h
      exact ⟨0, by rw [← h.2]; simp⟩
  | succ m ih =>
    intro d y r y' h
    by_cases hd : d < 0
    · rw [show normAdd P (m + 1) (d, y) = normAdd P m (d + P, y - 1) from by
        simp only [normAdd, if_pos hd]] at h
      obtain ⟨k, hk⟩ := ih (d + P) (y - 1) r y' h
      exact ⟨k - 1, by rw [hk]; push_cast; ring⟩
    · simp only [normAdd, if_neg hd, Option.some.injEq, Prod.mk.injEq] at h
      exact ⟨0, by rw [← h.2]; simp⟩

/-! ## Exact-arithmetic behaviour of the normalization loops

The next two theorems are facts about the exact-real-arithmetic
idealization only.  They do not settle termination of the source loops:
under IEEE binary64 arithmetic `tmp_day -= orbital_period` makes no
progress once `orbital_period` is below half an ulp of `tmp_day` (e.g.
`tmp_day = 1e19`, `orbital_period = 668.6`, where the ulp is `2048`), and
the first loop then runs forever on a finite input — a behaviour the
real-valued model cannot express. -/

/-- In the exact-real-arithmetic idealization: for every raw elapsed-day
value `d`, every starting year counter `y`, and every orbital period
`P > 0`, there is a finite fuel budget under which the two
day-normalization loops finish, and the day value they produce lies in
`[0, P)`.  See the section comment above: this is a statement about the
idealized model, not about termination of the f64 source loops. -/
theorem normalize_terminates_in_range (d y P : ℝ) (hP : 0 < P) :
    ∃ (n : ℕ) (r y' : ℝ),
      normalize P n (d, y) = some (r, y') ∧ 0 ≤ r ∧ r < P := by
  obtain ⟨n₁, hn₁⟩ := exists_nat_gt ((d - P) / P)
  obtain ⟨n₂, hn₂⟩ := exists_nat_gt (-(min d 0) / P)
  refine ⟨max n₁ n₂, ?_⟩
  have hle1 : (n₁ : ℝ) ≤ (max n₁ n₂ : ℕ) := by
    exact_mod_cast Nat.le_max_left n₁ n₂
  have hle2 : (n₂ : ℝ) ≤ (max n₁ n₂ : ℕ) := by
    exact_mod_cast Nat.le_max_right n₁ n₂
  have h1 : d < P + (max n₁ n₂ : ℕ) * P := by
    rw [div_lt_iff₀ hP] at hn₁
    nlinarith
  obtain ⟨r, y', hsub, hrP⟩ :=
    normSub_terminates P hP (max n₁ n₂) d y h1
  have hrmin : min d 0 ≤ r := normSub_lower P hP (max n₁ n₂) d y r y' hsub
  have h2 : -((max n₁ n₂ : ℕ) * P) ≤ r := by
    rw [div_lt_iff₀ hP] at hn₂
    nlinarith
  obtain ⟨r₂, y₂, hadd, hr0, hr₂P⟩ :=
    normAdd_terminates P hP (max n₁ n₂) r y' hrP h2
  refine ⟨r₂, y₂, ?_, hr0, hr₂P⟩
  rw [normalize, hsub]
  exact hadd

/-- The idealized termination fact instantiated at `d = 5`, `y = 12`,
`P = 2`. -/
theorem normalize_terminates_in_range_witness :
    (0 : ℝ) < 2 ∧
      ∃ (n : ℕ) (r y' : ℝ),
        normalize 2 n (5, 12) = some (r, y') ∧ 0 ≤ r ∧ r < 2 :=
  ⟨by norm_num, normalize_terminates_in_range 5 12 2 (by norm_num)⟩

/-! ## C8: the era of a computed date -/

theorem toI32_intCast (k : ℤ) : toI32 (k : ℝ) = k := by
  unfold toI32
  rcases le_or_lt 0 (k : ℝ) with h | h
  · rw [if_pos h, Int.floor_intCast]
  · rw [if_neg (not_le.mpr h), ← Int.cast_neg, Int.floor_intCast, neg_neg]

theorem normalize_year (P : ℝ) (n : ℕ) (d y r y' : ℝ)
    (h : normalize P n (d, y) = some (r, y')) : ∃ k : ℤ, y' = y + k := by
  rw [normalize] at h
  cases hsub : normSub P n (d, y) with
  | none => rw [hsub] at h; exact Option.noConfusion h
  | some s =>
    rw [hsub] at h
    obtain ⟨r₁, y₁⟩ := s
    obtain ⟨k₁, hk₁⟩ := normSub_year P n d y r₁ y₁ hsub
    obtain ⟨k₂, hk₂⟩ := normAdd_year P n r₁ y₁ r y' h
    exact ⟨k₁ + k₂, by rw [hk₂, hk₁]; push_cast; ring⟩

/-- Reduction of `Date::compute` once the result of the normalization
loops is known. -/
theorem Date.compute_eq_of_normalize (sl : ℝ → ℝ) (avgLs : ℝ)
    (seasonF : ℝ → String) (fuel : ℕ)
    (julian_date epoch rotational_period orbital_period r y : ℝ)
    (h : normalize orbital_period fuel
        ((julian_date - epoch) * EARTH_ROTATIONAL_PERIOD / rotational_period,
          12) = some (r, y)) :
    Date.compute sl avgLs seasonF fuel julian_date epoch rotational_period
        orbital_period =
      some ⟨if toI32 y > 0 then Eras.AD else Eras.BD, y,
        1 + (⌊sl r / avgLs⌋ : ℝ), 1 + (⌊r⌋ : ℝ), sl r, seasonF (sl r)⟩ := by
  unfold Date.compute
  rw [h]

/-- C8: for every input on which `Date::compute` returns (i.e. on which
its normalization loops terminate within the fuel), the `era` field of the
returned date is `AD` exactly when the year is positive, is `BD` when it
is not, and is never `Unknown`.  (The year starts at the hard-coded `12.0`
and only ever moves by whole steps of `1.0`, so the `year as i32`
truncation in the source is exact and `year as i32 > 0 ↔ year > 0`.) -/
theorem compute_era_ad_iff_year_pos (sl : ℝ → ℝ) (avgLs : ℝ)
    (seasonF : ℝ → String) (fuel : ℕ)
    (julian_date epoch rotational_period orbital_period : ℝ) (rec : Date)
    (h : Date.compute sl avgLs seasonF fuel julian_date epoch
        rotational_period orbital_period = some rec) :
    (0 < rec.year → rec.era = Eras.AD) ∧
      (¬ 0 < rec.year → rec.era = Eras.BD) ∧ rec.era ≠ Eras.Unknown := by
  cases hn : normalize orbital_period fuel
      ((julian_date - epoch) * EARTH_ROTATIONAL_PERIOD / rotational_period,
        12) with
  | none =>
    unfold Date.compute at h
    rw [hn] at h
    exact Option.noConfusion h
  | some s =>
    obtain ⟨r, y⟩ := s
    rw [Date.compute_eq_of_normalize sl avgLs seasonF fuel julian_date epoch
      rotational_period orbital_period r y hn] at h
    obtain ⟨k, hk⟩ := normalize_year _ _ _ _ _ _ hn
    have hy : y = ((12 + k : ℤ) : ℝ) := by rw [hk]; push_cast; ring
    have htoI : toI32 y = 12 + k := by rw [hy, toI32_intCast]
    obtain rfl : rec = _ := (Option.some.injEq _ _).mp h.symm
    by_cases hpos : toI32 y > 0
    · have hyk : (0 : ℤ) < 12 + k := htoI ▸ hpos
      have hypos : 0 < y := by rw [hy]; exact_mod_cast hyk
      refine ⟨fun _ => ?_, fun hc => absurd hypos hc, ?_⟩
      · simp only [if_pos hpos]
      · simp only [if_pos hpos]
        exact fun hc => Eras.noConfusion hc
    · have hyk : ¬ (0 : ℤ) < 12 + k := htoI ▸ hpos
      have hyneg : ¬ 0 < y := by
        rw [hy]
        exact_mod_cast hyk
      refine ⟨fun hc => absurd hc hyneg, fun _ => ?_, ?_⟩
      · simp only [if_neg hpos]
      · simp only [if_neg hpos]
        exact fun hc => Eras.noConfusion hc

/-- C8 witness: computing a date with `julian_date = epoch = 5`,
`rotational_period = 1`, `orbital_period = 2` (one fuel unit, the
longitude collaborators instantiated trivially) returns a date with
`era = AD` and `year = 12`. -/
theorem compute_era_ad_iff_year_pos_witness :
    Date.compute (fun _ => (0 : ℝ)) 1 (fun _ => "") 1 5 5 1 2 =
        some ⟨Eras.AD, 12, 1, 1, 0, ""⟩ ∧
      ((0 : ℝ) < 12 → Eras.AD = Eras.AD) ∧
        (¬ (0 : ℝ) < 12 → Eras.AD = Eras.BD) ∧ Eras.AD ≠ Eras.Unknown := by
  have hd0 : ((5 : ℝ) - 5) * EARTH_ROTATIONAL_PERIOD / 1 = 0 := by
    norm_num
  have hnorm : normalize 2 1 ((0 : ℝ), 12) = some (0, 12) := by
    rw [normalize, normSub_exit 2 1 (0, 12) (by norm_num)]
    exact normAdd_exit 2 1 (0, 12) (by norm_num)
  have heval : Date.compute (fun _ => (0 : ℝ)) 1 (fun _ => "") 1 5 5 1 2 =
      some ⟨Eras.AD, 12, 1, 1, 0, ""⟩ := by
    have h := Date.compute_eq_of_normalize (fun _ => (0 : ℝ)) 1
      (fun _ => "") 1 5 5 1 2 0 12 (by rw [hd0]; exact hnorm)
    rw [h]
    have ht : toI32 12 > 0 := by
      rw [show (12 : ℝ) = ((12 : ℤ) : ℝ) by norm_num, toI32_intCast]
      norm_num
    simp only [if_pos ht]
    norm_num
  exact ⟨heval,
    (compute_era_ad_iff_year_pos (fun _ => (0 : ℝ)) 1 (fun _ => "") 1 5 5 1 2
        ⟨Eras.AD, 12, 1, 1, 0, ""⟩ heval).1,
    (compute_era_ad_iff_year_pos (fun _ => (0 : ℝ)) 1 (fun _ => "") 1 5 5 1 2
        ⟨Eras.AD, 12, 1, 1, 0, ""⟩ heval).2.1,
    (compute_era_ad_iff_year_pos (fun _ => (0 : ℝ)) 1 (fun _ => "") 1 5 5 1 2
        ⟨Eras.AD, 12, 1, 1, 0, ""⟩ heval).2.2⟩

/-- Supporting fact for the epoch scenario: at `julian_date = epoch`
(zero elapsed time), for every positive orbital period, every nonzero
rotational period, every fuel and every instantiation of the longitude
collaborators, `Date::compute` returns a date with `day = 1` and
`year = 12` (the hard-coded initial year counter).  The month field is
`1 + ⌊sl 0 / avgLs⌋`, determined by the absent `orbit.rs` collaborators. -/
theorem compute_at_epoch_day_year (sl : ℝ → ℝ) (avgLs : ℝ)
    (seasonF : ℝ → String) (fuel : ℕ) (epoch rotational_period P : ℝ)
    (hP : 0 < P) (rec : Date)
    (h : Date.compute sl avgLs seasonF fuel epoch epoch rotational_period P =
      some rec) :
    rec.day = 1 ∧ rec.year = 12 := by
  have hd0 : (epoch - epoch) * EARTH_ROTATIONAL_PERIOD / rotational_period =
      0 := by
    rw [sub_self, zero_mul, zero_div]
  have hnorm : normalize P fuel
      ((epoch - epoch) * EARTH_ROTATIONAL_PERIOD / rotational_period, 12) =
      some (0, 12) := by
    rw [hd0, normalize,
      normSub_exit P fuel (0, 12) (by simpa using not_le.mpr hP)]
    exact normAdd_exit P fuel (0, 12) (by norm_num)
  rw [Date.compute_eq_of_normalize sl avgLs seasonF fuel epoch epoch
    rotational_period P 0 12 hnorm] at h
  obtain rfl : rec = _ := (Option.some.injEq _ _).mp h.symm
  constructor
  · show 1 + ((⌊(0 : ℝ)⌋ : ℤ) : ℝ) = 1
    norm_num
  · rfl

end RsSolar
